import Mathlib

/-!
Verification of the wakeci build execution and queueing subsystem.

This file gives a shallow embedding, in Lean 4, of the parts of the wakeci
backend that the specification talks about: the build state machine in
src/backend/build.go (Start, SetBuildStatus, runTask, runOnStatusTasks,
BroadcastUpdate, CollectArtifacts, ProcessLogEntry, CreateBuild) and the
HTTP-facing read path (getBuildConfig, HandleGetBuild).  Pure computations
are translated into Lean functions; effectful code is translated into
explicit state passing over small record types, with the order of observable
effects recorded in event traces.  External inputs (the scheduler, the child
process, parsers, the filesystem) are passed in as explicit parameters.
-/

set_option autoImplicit false

namespace Wakeci

/-- ItemStatus mirrors the Go string type ItemStatus and its five constant
values StatusPending, StatusRunning, StatusFinished, StatusFailed and
StatusAborted from build.go. -/
inductive ItemStatus where
  | pending
  | running
  | finished
  | failed
  | aborted
deriving DecidableEq, Repr

/-- statusString gives the Go string value of each ItemStatus constant. -/
def statusString : ItemStatus → String
  | ItemStatus.pending => "pending"
  | ItemStatus.running => "running"
  | ItemStatus.finished => "finished"
  | ItemStatus.failed => "failed"
  | ItemStatus.aborted => "aborted"

/-- Task mirrors the static fields of the Go Task struct that build.go
reads: the stable integer ID, the Kind string and the Command string.  The
mutable fields (Status, startedAt, duration) are modelled as events in the
execution traces below. -/
structure Task where
  ID : Nat
  Kind : String
  Command : String
deriving DecidableEq, Repr

/-- Modelled from the spec: the constant KindMain is declared in a part of
the repository that is not in src/.  The spec (section 3) fixes the task
kinds as main, pending, running, finished, failed, aborted, so the main
kind is the string "main". -/
def KindMain : String := "main"

/-- TaskResult is the exact set of values that runTask in build.go can
return: StatusAborted, StatusFailed or StatusFinished. -/
inductive TaskResult where
  | finished
  | failed
  | aborted
deriving DecidableEq, Repr

/-- taskResultStatus embeds a runTask result back into ItemStatus, as the
Go code does by returning the shared status constants. -/
def taskResultStatus : TaskResult → ItemStatus
  | TaskResult.finished => ItemStatus.finished
  | TaskResult.failed => ItemStatus.failed
  | TaskResult.aborted => ItemStatus.aborted

/-! ### runTask configuration (build.go lines 110-119) -/

/-- CmdOptions mirrors the cmd.Options struct literal built in runTask. -/
structure CmdOptions where
  Buffered : Bool
  Streaming : Bool
deriving DecidableEq, Repr

/-- runTaskCmdOptions is the options value runTask passes to
cmd.NewCmdOptions: output buffering disabled, streaming enabled. -/
def runTaskCmdOptions : CmdOptions := { Buffered := false, Streaming := true }

/-- DEFAULT_LINE_BUFFER_SIZE is the streaming line buffer size, in bytes,
that runTask assigns before creating the command (build.go line 118). -/
def DEFAULT_LINE_BUFFER_SIZE : Nat := 491520

/-! ### runTask result computation (build.go lines 154-201)

The streaming goroutine selects over the stdout channel, the stderr channel
and the aborted channel of the build.  The values it consumes are modelled
as a list of events in consumption order; the child process outcome is
modelled by CmdStatus, mirroring the fields of go-cmd Status that runTask
inspects. -/

/-- SelEv is one value consumed by the select loop of runTask: a stdout
line, a stderr line, or a boolean received on the aborted channel. -/
inductive SelEv where
  | outLine (s : String)
  | errLine (s : String)
  | abortSig (b : Bool)
deriving DecidableEq, Repr

/-- CmdStatus mirrors the fields of the go-cmd status record that runTask
reads: Complete, Exit and whether Error is non-nil. -/
structure CmdStatus where
  Complete : Bool
  Exit : Int
  Error : Bool
deriving DecidableEq, Repr

/-- abortedAfter folds the select-loop events over the aborted flag of the
build: receiving true on the aborted channel sets the flag (build.go lines
171-178); stdout and stderr lines leave it unchanged. -/
def abortedAfter (evs : List SelEv) (flag : Bool) : Bool :=
  evs.foldl
    (fun fl e =>
      match e with
      | SelEv.abortSig b => fl || b
      | _ => fl)
    flag

/-- runTaskStatus is the return value computation at the end of runTask
(build.go lines 192-201): the aborted flag is checked first; otherwise an
incomplete run, a nonzero exit code or a non-nil error gives failed, and
only a complete, zero-exit, error-free run gives finished. -/
def runTaskStatus (evs : List SelEv) (st : CmdStatus) : ItemStatus :=
  if abortedAfter evs false then ItemStatus.aborted
  else if !st.Complete || st.Exit != 0 || st.Error then ItemStatus.failed
  else ItemStatus.finished

/-! ### getBuildConfig (HTTP layer, src/unnamed/part_000 lines 17-53) -/

/-- Job mirrors the fields of the Go Job struct that build.go reads. -/
structure Job where
  Name : String
  Tasks : List Task
  Timeout : String
  Artifacts : List String
  DefaultParams : List (List (String × String))

/-- wakespaceDirOf is the per-build metadata directory prefix used by
getBuildConfig: workDir concatenated with wakespace/ and the decimal
build ID. -/
def wakespaceDirOf (workDir : String) (id : Nat) : String :=
  workDir ++ "wakespace/" ++ toString id

/-- newConfigFilename is the new-format config path build_plan ext used by
getBuildConfig. -/
def newConfigFilename (workDir ext : String) (id : Nat) : String :=
  wakespaceDirOf workDir id ++ "/build_plan" ++ ext

/-- oldConfigFilename is the old-format config path build ext used by
getBuildConfig. -/
def oldConfigFilename (workDir ext : String) (id : Nat) : String :=
  wakespaceDirOf workDir id ++ "/build" ++ ext

/-- getBuildConfig embeds the function of the same name from the HTTP
layer.  The filesystem is a map from path to contents (none models the
IsNotExist case of os.Stat); parseYaml models os.ReadFile plus
yaml.Unmarshal on the new-format file, and createJobFromFile models
CreateJobFromFile on the old-format path (its body is not part of the
embedded sources, so it is an explicit parameter).  Stat failures other
than nonexistence are not modelled. -/
def getBuildConfig (fs : String → Option String)
    (parseYaml : String → Except String Job)
    (createJobFromFile : String → Except String Job)
    (workDir ext : String) (id : Nat) : Except String Job :=
  match fs (newConfigFilename workDir ext id) with
  | none =>
    match fs (oldConfigFilename workDir ext id) with
    | none => Except.error "file does not exist"
    | some _ => createJobFromFile (oldConfigFilename workDir ext id)
  | some data => parseYaml data

/-- getBuildConfigClaim restates, in its own words, the precedence the
claim describes: the new-format file wins when present, the old-format
file is the fallback, and when neither exists the result is an error and
no job.  It is compared with the embedding getBuildConfig. -/
def getBuildConfigClaim (fs : String → Option String)
    (parseYaml : String → Except String Job)
    (createJobFromFile : String → Except String Job)
    (workDir ext : String) (id : Nat) : Except String Job :=
  match fs (newConfigFilename workDir ext id), fs (oldConfigFilename workDir ext id) with
  | some data, _ => parseYaml data
  | none, some _ => createJobFromFile (oldConfigFilename workDir ext id)
  | none, none => Except.error "file does not exist"

/-! ### BuildUpdateData, the history store and BroadcastUpdate
(build.go lines 273-307, HandleGetBuild lines 91-110)

BroadcastUpdate generates a BuildUpdateData record, sends it on the
process-wide broadcast channel, and then stores its JSON marshalling in the
history bucket under the build ID.  The store is modelled as an association
list from keys to JSON values; marshalling and unmarshalling are modelled by
an explicit JSON value type with an encoder and a decoder. -/

/-- TaskStatusRec mirrors the TaskStatus records produced by
GetTasksStatus: task ID, status, started-at instant and duration (both in
nanoseconds) and kind.  The struct declaration itself is not in src/; the
fields are taken from GetTasksStatus in build.go. -/
structure TaskStatusRec where
  ID : Int
  Status : ItemStatus
  StartedAt : Int
  Duration : Int
  Kind : String
deriving DecidableEq, Repr

/-- BuildUpdateData mirrors the record produced by GenerateBuildUpdateData
in build.go: build ID, job name, build status, per-task statuses, parameter
maps, artifact paths, started-at instant and duration.  Parameter maps are
modelled as association lists; time values as integer nanoseconds. -/
structure BuildUpdateData where
  ID : Int
  Name : String
  Status : ItemStatus
  Tasks : List TaskStatusRec
  Params : List (List (String × String))
  Artifacts : List String
  StartedAt : Int
  Duration : Int
deriving DecidableEq, Repr

/-- JVal models the JSON values produced by json.Marshal. -/
inductive JVal where
  | jnull
  | jstr (s : String)
  | jnum (n : Int)
  | jarr (xs : List JVal)
  | jobj (fields : List (String × JVal))

/-- encodeStatus marshals an ItemStatus as its JSON string. -/
def encodeStatus (s : ItemStatus) : JVal := JVal.jstr (statusString s)

/-- decodeStatus unmarshals an ItemStatus from its JSON string. -/
def decodeStatus : JVal → Option ItemStatus
  | JVal.jstr s =>
    if s = "pending" then some ItemStatus.pending
    else if s = "running" then some ItemStatus.running
    else if s = "finished" then some ItemStatus.finished
    else if s = "failed" then some ItemStatus.failed
    else if s = "aborted" then some ItemStatus.aborted
    else none
  | _ => none

/-- encodeTaskStatus marshals one TaskStatusRec as a JSON object. -/
def encodeTaskStatus (t : TaskStatusRec) : JVal :=
  JVal.jobj
    [("ID", JVal.jnum t.ID),
     ("Status", encodeStatus t.Status),
     ("StartedAt", JVal.jnum t.StartedAt),
     ("Duration", JVal.jnum t.Duration),
     ("Kind", JVal.jstr t.Kind)]

/-- decodeTaskStatus unmarshals a TaskStatusRec from the marshalled object
shape produced by encodeTaskStatus. -/
def decodeTaskStatus : JVal → Option TaskStatusRec
  | JVal.jobj [("ID", JVal.jnum i), ("Status", sj), ("StartedAt", JVal.jnum sa),
               ("Duration", JVal.jnum d), ("Kind", JVal.jstr k)] =>
    match decodeStatus sj with
    | some st => some { ID := i, Status := st, StartedAt := sa, Duration := d, Kind := k }
    | none => none
  | _ => none

/-- encodeTaskList marshals the task status list. -/
def encodeTaskList (ts : List TaskStatusRec) : List JVal :=
  ts.map encodeTaskStatus

/-- decodeTaskList unmarshals a task status list element by element. -/
def decodeTaskList : List JVal → Option (List TaskStatusRec)
  | [] => some []
  | j :: js =>
    match decodeTaskStatus j, decodeTaskList js with
    | some t, some ts => some (t :: ts)
    | _, _ => none

/-- encodeParamMap marshals one parameter map as a JSON object of
strings. -/
def encodeParamMap (m : List (String × String)) : JVal :=
  JVal.jobj (m.map (fun kv => (kv.1, JVal.jstr kv.2)))

/-- decodeParamEntries unmarshals the field list of one parameter map. -/
def decodeParamEntries : List (String × JVal) → Option (List (String × String))
  | [] => some []
  | (k, JVal.jstr v) :: rest =>
    match decodeParamEntries rest with
    | some tail => some ((k, v) :: tail)
    | none => none
  | _ => none

/-- decodeParamMap unmarshals one parameter map. -/
def decodeParamMap : JVal → Option (List (String × String))
  | JVal.jobj fields => decodeParamEntries fields
  | _ => none

/-- decodeParamsList unmarshals the list of parameter maps. -/
def decodeParamsList : List JVal → Option (List (List (String × String)))
  | [] => some []
  | j :: js =>
    match decodeParamMap j, decodeParamsList js with
    | some m, some ms => some (m :: ms)
    | _, _ => none

/-- decodeStrList unmarshals a list of JSON strings. -/
def decodeStrList : List JVal → Option (List String)
  | [] => some []
  | JVal.jstr s :: js =>
    match decodeStrList js with
    | some ss => some (s :: ss)
    | none => none
  | _ => none

/-- encodeBUD is the json.Marshal step of BroadcastUpdate applied to a
BuildUpdateData record. -/
def encodeBUD (d : BuildUpdateData) : JVal :=
  JVal.jobj
    [("ID", JVal.jnum d.ID),
     ("Name", JVal.jstr d.Name),
     ("Status", encodeStatus d.Status),
     ("Tasks", JVal.jarr (encodeTaskList d.Tasks)),
     ("Params", JVal.jarr (d.Params.map encodeParamMap)),
     ("Artifacts", JVal.jarr (d.Artifacts.map JVal.jstr)),
     ("StartedAt", JVal.jnum d.StartedAt),
     ("Duration", JVal.jnum d.Duration)]

/-- decodeBUD is the json.Unmarshal step of HandleGetBuild applied to a
stored history record of the marshalled shape. -/
def decodeBUD : JVal → Option BuildUpdateData
  | JVal.jobj [("ID", JVal.jnum i), ("Name", JVal.jstr name), ("Status", sj),
               ("Tasks", JVal.jarr tasksJ), ("Params", JVal.jarr paramsJ),
               ("Artifacts", JVal.jarr artsJ), ("StartedAt", JVal.jnum sa),
               ("Duration", JVal.jnum dur)] =>
    match decodeStatus sj, decodeTaskList tasksJ, decodeParamsList paramsJ,
          decodeStrList artsJ with
    | some st, some ts, some ps, some arts =>
      some { ID := i, Name := name, Status := st, Tasks := ts, Params := ps,
             Artifacts := arts, StartedAt := sa, Duration := dur }
    | _, _, _, _ => none
  | _ => none

/-- putKV is the bolt bucket Put of the history bucket: it replaces the
value stored under a key, inserting the pair when the key is new. -/
def putKV : List (Int × JVal) → Int → JVal → List (Int × JVal)
  | [], k, v => [(k, v)]
  | (k0, v0) :: rest, k, v =>
    if k0 = k then (k, v) :: rest else (k0, v0) :: putKV rest k v

/-- getKV is the bolt bucket Get of the history bucket. -/
def getKV : List (Int × JVal) → Int → Option JVal
  | [], _ => none
  | (k0, v0) :: rest, k => if k0 = k then some v0 else getKV rest k

/-- MsgB mirrors MsgBroadcast: a type tag string and the BuildUpdateData
payload carried by a build update message. -/
structure MsgB where
  MsgType : String
  Data : BuildUpdateData
deriving DecidableEq, Repr

/-- BUEv records the two observable effects of BroadcastUpdate, in the
order in which they become observable. -/
inductive BUEv where
  | chanSend (id : Int)
  | dbPut (id : Int)
deriving DecidableEq, Repr

/-- SysState holds the observable state BroadcastUpdate touches: the
sequence of messages sent on the broadcast channel, the history bucket, and
the trace of effects. -/
structure SysState where
  chan : List MsgB
  store : List (Int × JVal)
  trace : List BUEv

/-- broadcastSendStage is the first half of BroadcastUpdate (build.go lines
274-279): the MsgBroadcast value is sent on BroadcastChannel. -/
def broadcastSendStage (d : BuildUpdateData) (st : SysState) : SysState :=
  { st with
    chan := st.chan ++ [{ MsgType := "build:update:" ++ toString d.ID, Data := d }],
    trace := st.trace ++ [BUEv.chanSend d.ID] }

/-- historyPutStage is the second half of BroadcastUpdate (build.go lines
281-289): the record is marshalled and stored in the history bucket under
the build ID inside a store transaction. -/
def historyPutStage (d : BuildUpdateData) (st : SysState) : SysState :=
  { st with
    store := putKV st.store d.ID (encodeBUD d),
    trace := st.trace ++ [BUEv.dbPut d.ID] }

/-- broadcastUpdate composes the two stages in source order: the channel
send happens first, the history write second. -/
def broadcastUpdate (d : BuildUpdateData) (st : SysState) : SysState :=
  historyPutStage d (broadcastSendStage d st)

/-- readBuildStatus is the read path of HandleGetBuild: the history bucket
is read under the build ID and the stored bytes are unmarshalled. -/
def readBuildStatus (st : SysState) (id : Int) : Option BuildUpdateData :=
  (getKV st.store id).bind decodeBUD

/-- emptySys is a system state with no messages and an empty history
bucket. -/
def emptySys : SysState := { chan := [], store := [], trace := [] }

/-- sampleBUD is a concrete build update record used as an explicit input
for refutations. -/
def sampleBUD : BuildUpdateData :=
  { ID := 1, Name := "job", Status := ItemStatus.running, Tasks := [],
    Params := [], Artifacts := [], StartedAt := 0, Duration := 0 }

/-! ### Build ID allocation (CreateBuild, build.go lines 424-493) -/

/-- GlobalBucket models the global bucket of the store: the count key is
either absent (fresh store) or holds the last allocated build ID. -/
structure GlobalBucket where
  count : Option Nat
deriving DecidableEq, Repr

/-- allocBuildID is the DB.Update transaction at the top of CreateBuild: a
missing count key yields ID 1, otherwise the stored counter is parsed,
incremented and written back. -/
def allocBuildID (g : GlobalBucket) : Nat × GlobalBucket :=
  match g.count with
  | none => (1, { count := some 1 })
  | some n => (n + 1, { count := some (n + 1) })

/-- nextID is the ID the allocation transaction yields on a given bucket
state. -/
def nextID (g : GlobalBucket) : Nat :=
  match g.count with
  | none => 1
  | some n => n + 1

/-- createBuild models one CreateBuild call.  txOK tells whether the
allocation transaction commits (a failing transaction leaves the bucket
unchanged and returns an error); fsOK tells whether the filesystem steps
that follow the committed transaction (MkdirAll, ReadFile, WriteFile)
succeed.  A filesystem failure returns an error after the counter has
already been advanced. -/
def createBuild (txOK fsOK : Bool) (g : GlobalBucket) : Option Nat × GlobalBucket :=
  if txOK then
    let (id, g1) := allocBuildID g
    if fsOK then (some id, g1) else (none, g1)
  else (none, g)

/-- runCreates folds a sequence of CreateBuild attempts over the global
bucket, collecting the returned build IDs. -/
def runCreates : List (Bool × Bool) → GlobalBucket → List (Option Nat) × GlobalBucket
  | [], g => ([], g)
  | (tx, fsf) :: rest, g =>
    let (r, g1) := createBuild tx fsf g
    let (rs, g2) := runCreates rest g1
    (r :: rs, g2)

/-! ### Build state machine traces (Start and SetBuildStatus,
build.go lines 58-85 and 369-421)

The observable actions of the build state machine are recorded as events.
Effects whose payload the claims do not inspect (timer arming, log lines)
are represented by their occurrence alone. -/

/-- Ev is one observable action of the build state machine. -/
inductive Ev where
  | setStatus (s : ItemStatus)
  | wgWait
  | spawnHooks
  | setStarted
  | hooks (s : ItemStatus)
  | collect
  | setDuration
  | cleanup
  | bcast
  | taskSet (i : Nat) (s : ItemStatus)
  | taskDur (i : Nat)
  | run (i : Nat)
deriving DecidableEq, Repr

/-- sbsEvents lists the actions of one SetBuildStatus call in source
order: the status field is assigned, the broadcast is deferred so it runs
last, the pending wait-group is awaited, and then the switch on the new
status runs its per-state actions.  For pending the hook tasks are spawned
on a separate goroutine; for running the start time is recorded (the
timeout timer, being time-driven, is not given an event) and the running
hooks run synchronously; the terminal states run their hooks, record the
build duration and clean up, with finished first collecting artifacts. -/
def sbsEvents (s : ItemStatus) : List Ev :=
  [Ev.setStatus s, Ev.wgWait] ++
  (match s with
   | ItemStatus.pending => [Ev.spawnHooks]
   | ItemStatus.running => [Ev.setStarted, Ev.hooks ItemStatus.running]
   | ItemStatus.aborted => [Ev.hooks ItemStatus.aborted, Ev.setDuration, Ev.cleanup]
   | ItemStatus.failed => [Ev.hooks ItemStatus.failed, Ev.setDuration, Ev.cleanup]
   | ItemStatus.finished =>
     [Ev.collect, Ev.hooks ItemStatus.finished, Ev.setDuration, Ev.cleanup]) ++
  [Ev.bcast]

/-- startAux is the main loop of Build.Start over the enumerated task
list.  Tasks whose kind is not main are skipped.  For a main task at
position i the loop sets its status to running, broadcasts, invokes the
task runner, assigns the final status and the duration, and then switches
on the result: finished broadcasts and continues, failed and aborted leave
the loop through SetBuildStatus on the matching terminal status.  An
exhausted list reaches SetBuildStatus on finished.  The runner outcome is
an explicit parameter keyed by position. -/
def startAux (runner : Nat → TaskResult) : List (Nat × Task) → List Ev
  | [] => sbsEvents ItemStatus.finished
  | (i, t) :: ts =>
    if t.Kind = KindMain then
      [Ev.taskSet i ItemStatus.running, Ev.bcast, Ev.run i,
       Ev.taskSet i (taskResultStatus (runner i)), Ev.taskDur i] ++
      (match runner i with
       | TaskResult.finished => Ev.bcast :: startAux runner ts
       | TaskResult.failed => sbsEvents ItemStatus.failed
       | TaskResult.aborted => sbsEvents ItemStatus.aborted)
    else startAux runner ts

/-- buildStartTrace is the full action trace of Build.Start: the running
transition followed by the main loop. -/
def buildStartTrace (runner : Nat → TaskResult) (tasks : List Task) : List Ev :=
  sbsEvents ItemStatus.running ++ startAux runner tasks.enum

/-- mainsOf selects the main-kind tasks together with their declaration
positions, in declaration order. -/
def mainsOf (tasks : List Task) : List (Nat × Task) :=
  tasks.enum.filter (fun it => it.2.Kind = KindMain)

/-- execResults describes, following the words of the claim, which main
tasks execute and with what result: tasks execute in order while the
runner keeps returning finished; the first failed or aborted result is
executed and stops the sequence.  The second component is the stopping
result, none when every main task finished. -/
def execResults (runner : Nat → TaskResult) :
    List (Nat × Task) → List (Nat × TaskResult) × Option TaskResult
  | [] => ([], none)
  | (i, _) :: ts =>
    match runner i with
    | TaskResult.finished =>
      let (l, r) := execResults runner ts
      ((i, TaskResult.finished) :: l, r)
    | TaskResult.failed => ([(i, TaskResult.failed)], some TaskResult.failed)
    | TaskResult.aborted => ([(i, TaskResult.aborted)], some TaskResult.aborted)

/-- specTaskBlock is, in the words of the claim, the action block of one
executed main task: status set to running, a broadcast, the runner
invocation, the final status and duration assignment, and for a finished
result a broadcast before the next task. -/
def specTaskBlock (p : Nat × TaskResult) : List Ev :=
  [Ev.taskSet p.1 ItemStatus.running, Ev.bcast, Ev.run p.1,
   Ev.taskSet p.1 (taskResultStatus p.2), Ev.taskDur p.1] ++
  (match p.2 with
   | TaskResult.finished => [Ev.bcast]
   | _ => [])

/-- terminalStatus is the terminal build status the claim predicts from
the stopping result: the status of the first failed or aborted task, or
finished when every main task finished. -/
def terminalStatus : Option TaskResult → ItemStatus
  | none => ItemStatus.finished
  | some r => taskResultStatus r

/-- startSpecTrace is the trace the claim describes: the running
transition, the blocks of the executed main tasks in declaration order,
and the terminal transition. -/
def startSpecTrace (runner : Nat → TaskResult) (tasks : List Task) : List Ev :=
  sbsEvents ItemStatus.running ++
  ((execResults runner (mainsOf tasks)).1.flatMap specTaskBlock) ++
  sbsEvents (terminalStatus (execResults runner (mainsOf tasks)).2)

/-! ### SetBuildStatus over build state (artifact collection, C6) -/

/-- BuildState carries the per-build fields that SetBuildStatus reads and
writes: the status, the collected artifact paths, the workspace files an
artifact collection would copy (the glob result, an input of the model),
whether the duration has been recorded, and the action trace. -/
structure BuildState where
  status : ItemStatus
  artifacts : List String
  collectible : List String
  durationSet : Bool
  events : List Ev

/-- collectArtifacts models CollectArtifacts (build.go lines 231-269): the
matched workspace files are copied into the artifacts directory and their
relative paths are appended to the artifact list of the build. -/
def collectArtifacts (st : BuildState) : BuildState :=
  { st with
    artifacts := st.artifacts ++ st.collectible,
    events := st.events ++ [Ev.collect] }

/-- setBuildStatus is the state-passing embedding of SetBuildStatus: the
status field is assigned, the wait-group is awaited, the switch on the new
status runs its actions, and the deferred BroadcastUpdate runs last. -/
def setBuildStatus (s : ItemStatus) (st : BuildState) : BuildState :=
  let st0 := { st with status := s, events := st.events ++ [Ev.setStatus s, Ev.wgWait] }
  let st1 :=
    match s with
    | ItemStatus.pending =>
      { st0 with events := st0.events ++ [Ev.spawnHooks] }
    | ItemStatus.running =>
      { st0 with events := st0.events ++ [Ev.setStarted, Ev.hooks ItemStatus.running] }
    | ItemStatus.aborted =>
      { st0 with durationSet := true,
                 events := st0.events ++ [Ev.hooks ItemStatus.aborted, Ev.setDuration, Ev.cleanup] }
    | ItemStatus.failed =>
      { st0 with durationSet := true,
                 events := st0.events ++ [Ev.hooks ItemStatus.failed, Ev.setDuration, Ev.cleanup] }
    | ItemStatus.finished =>
      let stc := collectArtifacts st0
      { stc with durationSet := true,
                 events := stc.events ++ [Ev.hooks ItemStatus.finished, Ev.setDuration, Ev.cleanup] }
  { st1 with events := st1.events ++ [Ev.bcast] }

/-! ### Log pipeline (ProcessLogEntry, build.go lines 310-330) -/

/-- goPadLeft is the fmt verb behaviour of a width-10 string argument:
shorter strings are padded on the left with spaces up to the width, longer
strings are kept whole. -/
def goPadLeft (w : Nat) (s : String) : String :=
  if s.length < w then String.mk (List.replicate (w - s.length) ' ') ++ s else s

/-- Modelled from the spec: StripColor is declared in a part of the
repository that is not in src/.  Per the spec it strips ANSI color escape
sequences; an escape-bracket opener switches to a skipping mode that
consumes characters up to the terminating m. -/
def stripColorAux : Bool → List Char → List Char
  | _, [] => []
  | true, c :: rest =>
    if c = 'm' then stripColorAux false rest else stripColorAux true rest
  | false, '\x1b' :: '[' :: rest => stripColorAux true rest
  | false, c :: rest => c :: stripColorAux false rest

/-- StripColor applies the color stripping to a whole line. -/
def StripColor (s : String) : String :=
  String.mk (stripColorAux false s.data)

/-- truncateDur is Duration.Truncate for nonnegative durations: rounding
toward zero to a multiple of the unit. -/
def truncateDur (d unit : Nat) : Nat := d - d % unit

/-- CommandLogData mirrors the payload of a build log broadcast message:
the task ID and the processed line. -/
structure CommandLogData where
  TaskID : Nat
  Data : String
deriving DecidableEq, Repr

/-- ProcessLogEntry embeds the function of the same name: the processed
line prepends the elapsed duration since task start, truncated to a
millisecond, rendered by the external duration printer durStr and padded
into a width-10 field between brackets; the line itself is color-stripped
and a newline is appended.  The same processed line is written to the task
log file (first component) and carried by the broadcast payload (second
component).  elapsedNs is the elapsed time in nanoseconds. -/
def ProcessLogEntry (durStr : Nat → String) (taskID : Nat) (elapsedNs : Nat)
    (line : String) : String × CommandLogData :=
  let pline :=
    "[" ++ goPadLeft 10 (durStr (truncateDur elapsedNs 1000000)) ++ "] " ++
    StripColor line ++ "\n"
  (pline, { TaskID := taskID, Data := pline })

/-- rightJustify is, in the words of the claim, right justification in a
field of the given width: the missing characters are supplied as spaces on
the left. -/
def rightJustify (w : Nat) (s : String) : String :=
  String.mk (List.replicate (w - s.length) ' ') ++ s

/-! ### Pending hook wait-group (runOnStatusTasks and SetBuildStatus,
build.go lines 88-104 and 374-381)

SetBuildStatus on pending spawns runOnStatusTasks on a new goroutine; the
wait-group Add is the first statement of that goroutine, not of the
spawning thread.  A later SetBuildStatus waits on the group before running
its actions.  The interleavings of the hook goroutine and the later
transition are modelled by an explicit scheduler: a thread executes its
next operation when scheduled, except that a Wait only proceeds while the
counter is zero. -/

/-- HookOp is one step of the spawned pending-hook goroutine: the
wait-group Add, the body running the hook tasks, and the deferred Done. -/
inductive HookOp where
  | add
  | runHooks
  | done
deriving DecidableEq, Repr

/-- MainOp is one step of a later SetBuildStatus call: the wait-group Wait
followed by the per-status actions of the transition. -/
inductive MainOp where
  | wait
  | actions
deriving DecidableEq, Repr

/-- Tid names the two threads of the model. -/
inductive Tid where
  | hook
  | main
deriving DecidableEq, Repr

/-- WGState is the shared state: the wait-group counter, the remaining
program of each thread, and the trace of completed operations. -/
structure WGState where
  counter : Nat
  hookProg : List HookOp
  mainProg : List MainOp
  trace : List (Sum HookOp MainOp)
deriving DecidableEq, Repr

/-- wgStep runs one scheduler step: the chosen thread completes its next
operation, except that a Wait blocks (the step is a no-op) while the
counter is nonzero. -/
def wgStep : Tid → WGState → WGState
  | Tid.hook, st =>
    match st.hookProg with
    | [] => st
    | HookOp.add :: rest =>
      { st with counter := st.counter + 1, hookProg := rest,
                trace := st.trace ++ [Sum.inl HookOp.add] }
    | HookOp.runHooks :: rest =>
      { st with hookProg := rest, trace := st.trace ++ [Sum.inl HookOp.runHooks] }
    | HookOp.done :: rest =>
      { st with counter := st.counter - 1, hookProg := rest,
                trace := st.trace ++ [Sum.inl HookOp.done] }
  | Tid.main, st =>
    match st.mainProg with
    | [] => st
    | MainOp.wait :: rest =>
      if st.counter = 0 then
        { st with mainProg := rest, trace := st.trace ++ [Sum.inr MainOp.wait] }
      else st
    | MainOp.actions :: rest =>
      { st with mainProg := rest, trace := st.trace ++ [Sum.inr MainOp.actions] }

/-- wgRun folds a schedule over the shared state. -/
def wgRun (sched : List Tid) (st : WGState) : WGState :=
  sched.foldl (fun s t => wgStep t s) st

/-- pendingHookInit is the shared state right after SetBuildStatus on
pending has spawned the hook goroutine and a later SetBuildStatus call has
reached its Wait: the counter is still zero because the Add is the first
statement of the goroutine and has not run yet. -/
def pendingHookInit : WGState :=
  { counter := 0,
    hookProg := [HookOp.add, HookOp.runHooks, HookOp.done],
    mainProg := [MainOp.wait, MainOp.actions],
    trace := [] }

/-- racySchedule is the schedule in which the later transition runs before
the goroutine gets its first step. -/
def racySchedule : List Tid :=
  [Tid.main, Tid.main, Tid.hook, Tid.hook, Tid.hook]

/-! ## Helper lemmas -/

/-- A run event never occurs among the actions of a status transition. -/
theorem run_not_mem_sbsEvents (s : ItemStatus) (j : Nat) : Ev.run j ∉ sbsEvents s := by
  cases s <;> simp [sbsEvents]

/-- A run event occurs in the block of an executed task exactly for the
position of that task. -/
theorem run_mem_specTaskBlock (p : Nat × TaskResult) (j : Nat) :
    Ev.run j ∈ specTaskBlock p ↔ j = p.1 := by
  obtain ⟨i, r⟩ := p
  cases r <;> simp [specTaskBlock, taskResultStatus]

/-- Once the aborted flag is set it stays set for the rest of the select
loop. -/
theorem abortedAfter_true (evs : List SelEv) : abortedAfter evs true = true := by
  induction evs with
  | nil => rfl
  | cons e rest ih => cases e <;> simpa [abortedAfter] using ih

/-- Consuming true on the aborted channel sets the flag, whatever its
previous value. -/
theorem abortedAfter_of_mem (evs : List SelEv) (h : SelEv.abortSig true ∈ evs)
    (fl : Bool) : abortedAfter evs fl = true := by
  induction evs generalizing fl with
  | nil => cases h
  | cons e rest ih =>
    rcases List.mem_cons.mp h with he | hm
    · cases he
      simpa [abortedAfter] using abortedAfter_true rest
    · cases e with
      | abortSig b => simpa [abortedAfter] using ih hm (fl || b)
      | outLine s => simpa [abortedAfter] using ih hm fl
      | errLine s => simpa [abortedAfter] using ih hm fl

/-- Without a true value on the aborted channel the flag stays clear. -/
theorem abortedAfter_of_not_mem (evs : List SelEv) (h : SelEv.abortSig true ∉ evs) :
    abortedAfter evs false = false := by
  induction evs with
  | nil => rfl
  | cons e rest ih =>
    have hrest : SelEv.abortSig true ∉ rest := fun hm => h (List.mem_cons_of_mem _ hm)
    cases e with
    | abortSig b =>
      cases b with
      | false => simpa [abortedAfter] using ih hrest
      | true => exact absurd (List.mem_cons_self _ _) h
    | outLine s => simpa [abortedAfter] using ih hrest
    | errLine s => simpa [abortedAfter] using ih hrest

/-- Reading back a key just written returns the written value. -/
theorem getKV_putKV (s : List (Int × JVal)) (k : Int) (v : JVal) :
    getKV (putKV s k v) k = some v := by
  induction s with
  | nil => simp [putKV, getKV]
  | cons a rest ih =>
    obtain ⟨k0, v0⟩ := a
    by_cases h : k0 = k
    · simp [putKV, getKV, h]
    · simp [putKV, getKV, h, ih]

/-- Unmarshalling a marshalled status yields the status back. -/
theorem decodeStatus_encodeStatus (s : ItemStatus) :
    decodeStatus (encodeStatus s) = some s := by
  cases s <;> rfl

/-- Unmarshalling a marshalled task status record yields the record
back. -/
theorem decodeTaskStatus_encodeTaskStatus (t : TaskStatusRec) :
    decodeTaskStatus (encodeTaskStatus t) = some t := by
  obtain ⟨i, st, sa, du, k⟩ := t
  cases st <;> rfl

/-- Unmarshalling a marshalled task status list yields the list back. -/
theorem decodeTaskList_encodeTaskList (ts : List TaskStatusRec) :
    decodeTaskList (ts.map encodeTaskStatus) = some ts := by
  induction ts with
  | nil => rfl
  | cons t rest ih =>
    simp [decodeTaskList, decodeTaskStatus_encodeTaskStatus, ih]

/-- Unmarshalling marshalled parameter entries yields the entries back. -/
theorem decodeParamEntries_encode (m : List (String × String)) :
    decodeParamEntries (m.map (fun kv => (kv.1, JVal.jstr kv.2))) = some m := by
  induction m with
  | nil => rfl
  | cons kv rest ih =>
    obtain ⟨k, v⟩ := kv
    simp [decodeParamEntries, ih]

/-- Unmarshalling a marshalled parameter map yields the map back. -/
theorem decodeParamMap_encodeParamMap (m : List (String × String)) :
    decodeParamMap (encodeParamMap m) = some m := by
  simp [encodeParamMap, decodeParamMap, decodeParamEntries_encode]

/-- Unmarshalling the marshalled parameter map list yields the list
back. -/
theorem decodeParamsList_encode (ps : List (List (String × String))) :
    decodeParamsList (ps.map encodeParamMap) = some ps := by
  induction ps with
  | nil => rfl
  | cons m rest ih => simp [decodeParamsList, decodeParamMap_encodeParamMap, ih]

/-- Unmarshalling a marshalled string list yields the list back. -/
theorem decodeStrList_encode (ss : List String) :
    decodeStrList (ss.map JVal.jstr) = some ss := by
  induction ss with
  | nil => rfl
  | cons s rest ih => simp [decodeStrList, ih]

/-- Unmarshalling a marshalled BuildUpdateData record yields the record
back field-wise. -/
theorem decodeBUD_encodeBUD (d : BuildUpdateData) :
    decodeBUD (encodeBUD d) = some d := by
  obtain ⟨i, name, st, ts, ps, arts, sa, du⟩ := d
  cases st <;>
    simp [encodeBUD, decodeBUD, decodeTaskList_encodeTaskList, encodeTaskList,
          decodeParamsList_encode, decodeStrList_encode, decodeStatus, encodeStatus,
          statusString]

/-- The fmt width padding agrees with plain right justification. -/
theorem goPadLeft_eq_rightJustify (w : Nat) (s : String) :
    goPadLeft w s = rightJustify w s := by
  unfold goPadLeft rightJustify
  by_cases h : s.length < w
  · simp [h]
  · have hz : w - s.length = 0 := by omega
    simp [h, hz]

/-- The main loop of Start produces exactly the trace the claim
describes. -/
theorem startAux_eq_spec (runner : Nat → TaskResult) (l : List (Nat × Task)) :
    startAux runner l =
      ((execResults runner (l.filter (fun it => it.2.Kind = KindMain))).1.flatMap
        specTaskBlock) ++
      sbsEvents
        (terminalStatus
          (execResults runner (l.filter (fun it => it.2.Kind = KindMain))).2) := by
  induction l with
  | nil => rfl
  | cons it ts ih =>
    obtain ⟨i, t⟩ := it
    by_cases h : t.Kind = KindMain
    · cases hr : runner i with
      | finished =>
        simp [startAux, h, hr, execResults, specTaskBlock, taskResultStatus, ih,
              List.filter_cons, List.append_assoc]
      | failed =>
        simp [startAux, h, hr, execResults, specTaskBlock, taskResultStatus,
              terminalStatus, List.filter_cons, List.append_assoc]
      | aborted =>
        simp [startAux, h, hr, execResults, specTaskBlock, taskResultStatus,
              terminalStatus, List.filter_cons, List.append_assoc]
    · simp [startAux, h, List.filter_cons, ih]

/-! ## Claim theorems -/

/-- Claim C1, counterexample: at the observable point where the
build:update message has been sent on the broadcast channel, the history
bucket still lacks the record of the build — so the store write is not
observable before or atomically with the broadcast.  The store only holds
the record after the second stage of BroadcastUpdate. -/
theorem broadcast_observable_before_store_cex :
    (broadcastSendStage sampleBUD emptySys).chan =
      [{ MsgType := "build:update:1", Data := sampleBUD }] ∧
    (broadcastSendStage sampleBUD emptySys).trace = [BUEv.chanSend 1] ∧
    readBuildStatus (broadcastSendStage sampleBUD emptySys) sampleBUD.ID = none ∧
    readBuildStatus (broadcastUpdate sampleBUD emptySys) sampleBUD.ID =
      some sampleBUD := by
  refine ⟨rfl, rfl, rfl, rfl⟩

/-- Claim C1, amended: for every build status change the broadcast channel
send is observable strictly before the matching history-store write — the
trace of BroadcastUpdate is the send followed by the store write, and at
the moment of the send the store is still unchanged. -/
theorem broadcast_send_precedes_history_write (d : BuildUpdateData) (st : SysState) :
    (broadcastUpdate d st).trace = st.trace ++ [BUEv.chanSend d.ID, BUEv.dbPut d.ID] ∧
    (broadcastSendStage d st).store = st.store := by
  constructor
  · simp [broadcastUpdate, historyPutStage, broadcastSendStage]
  · rfl

/-- Claim C2, counterexample: with a creation attempt that commits the ID
allocation but then fails on a filesystem step between two successful
creations, the successful builds of a single process lifetime receive IDs
1 and 3 — the second successfully created build does not receive an ID
exactly one greater than the previous one. -/
theorem buildID_gap_within_lifetime_cex :
    (runCreates [(true, true), (true, false), (true, true)] { count := none }).1 =
      [some 1, none, some 3] ∧
    ((runCreates [(true, true), (true, false), (true, true)] { count := none }).1.filterMap
      (fun o => o)) = [1, 3] ∧
    ¬ (3 = 1 + 1) := by
  decide

/-- Claim C2, amended: the first allocation on an empty store yields 1 and
every committed allocation returns the successor of the stored counter and
persists it, so build IDs are strictly increasing (also across restarts)
and consecutive creations whose allocation commits receive consecutive
IDs; but an attempt whose allocation commits and whose later filesystem
steps fail consumes the ID without creating a build, leaving a gap even
within a single process lifetime, while an attempt whose allocation
transaction fails leaves the counter unchanged. -/
theorem buildID_allocation_behaviour :
    allocBuildID { count := none } = (1, { count := some 1 }) ∧
    (∀ n : Nat, allocBuildID { count := some n } = (n + 1, { count := some (n + 1) })) ∧
    (∀ (g : GlobalBucket) (fsOK : Bool),
      createBuild true fsOK g =
        ((if fsOK then some (nextID g) else none), (allocBuildID g).2)) ∧
    (∀ g : GlobalBucket, createBuild false true g = (none, g)) ∧
    (∀ g : GlobalBucket, (allocBuildID g).2.count = some ((allocBuildID g).1)) := by
  refine ⟨rfl, fun n => rfl, ?_, fun g => rfl, ?_⟩
  · intro g fsOK
    obtain ⟨c⟩ := g
    cases c <;> cases fsOK <;> rfl
  · intro g
    obtain ⟨c⟩ := g
    cases c <;> rfl

/-- Claim C3, counterexample: the streaming line buffer size runTask
configures is 491520 bytes, which is below 524288 bytes — the claimed
512 KiB floor does not hold. -/
theorem lineBuffer_below_512KiB_cex :
    ¬ (524288 ≤ DEFAULT_LINE_BUFFER_SIZE) := by
  decide

/-- Claim C3, amended: runTask configures unbuffered streaming output with
a line buffer of exactly 491520 bytes (480 KiB), so a single logical line
of up to 491520 bytes is never split across sink writes. -/
theorem lineBuffer_is_480KiB :
    DEFAULT_LINE_BUFFER_SIZE = 491520 ∧
    runTaskCmdOptions.Buffered = false ∧
    runTaskCmdOptions.Streaming = true := by
  decide

/-- Claim C4: Build.Start iterates the main-kind tasks in declaration
order; each executed task is set to running and broadcast, then run, then
given its final status and duration; a finished result broadcasts and
continues, a failed or aborted result ends the loop through the matching
terminal transition of the build, and when every main task finishes the
build transitions to finished.  The run events of the trace are exactly
those of the executed prefix, so main tasks after the first failed or
aborted one never run. -/
theorem buildStart_follows_claim (runner : Nat → TaskResult) (tasks : List Task) :
    buildStartTrace runner tasks = startSpecTrace runner tasks ∧
    (∀ j : Nat, Ev.run j ∈ buildStartTrace runner tasks ↔
      j ∈ (execResults runner (mainsOf tasks)).1.map Prod.fst) := by
  constructor
  · unfold buildStartTrace startSpecTrace mainsOf
    rw [startAux_eq_spec]
    simp [List.append_assoc]
  · intro j
    unfold buildStartTrace mainsOf
    rw [startAux_eq_spec]
    simp [run_not_mem_sbsEvents, run_mem_specTaskBlock, List.mem_flatMap,
          List.mem_map, eq_comm]

/-- Claim C5, code bug: the wait-group Add of the pending hook goroutine
is its first statement rather than preceding the spawn, so there is a
valid interleaving in which a later SetBuildStatus executes its Wait while
the counter is still zero and proceeds to its transition actions before
the pending hook tasks have even started — the transition does not block
on the pending hooks.  The final state below evaluates the model at that
interleaving: both threads run to completion and the trace shows the
transition actions strictly before the hook body. -/
theorem pendingHook_wait_race :
    wgRun racySchedule pendingHookInit =
      { counter := 0, hookProg := [], mainProg := [],
        trace := [Sum.inr MainOp.wait, Sum.inr MainOp.actions, Sum.inl HookOp.add,
                  Sum.inl HookOp.runHooks, Sum.inl HookOp.done] } := by
  rfl

/-- Claim C6: the transitions to failed and to aborted leave the artifact
list of the build unchanged and their action sequences contain no artifact
collection, while the transition to finished is the one that collects. -/
theorem artifacts_only_on_finished (st : BuildState) :
    (setBuildStatus ItemStatus.failed st).artifacts = st.artifacts ∧
    (setBuildStatus ItemStatus.aborted st).artifacts = st.artifacts ∧
    (setBuildStatus ItemStatus.failed st).events = st.events ++ sbsEvents ItemStatus.failed ∧
    (setBuildStatus ItemStatus.aborted st).events = st.events ++ sbsEvents ItemStatus.aborted ∧
    Ev.collect ∉ sbsEvents ItemStatus.failed ∧
    Ev.collect ∉ sbsEvents ItemStatus.aborted ∧
    (setBuildStatus ItemStatus.finished st).artifacts = st.artifacts ++ st.collectible := by
  refine ⟨rfl, rfl, ?_, ?_, by decide, by decide, rfl⟩
  · simp [setBuildStatus, sbsEvents]
  · simp [setBuildStatus, sbsEvents]

/-- Claim C7: every line produced by ProcessLogEntry — the one written to
the task log file and the one carried by the build log broadcast — is the
concatenation of an opening bracket, the elapsed duration truncated to a
millisecond and right-justified in a ten-character field, a closing
bracket and space, the color-stripped input line and a trailing newline;
the bracketed field widens only for oversized duration strings and the
truncated duration is a whole number of milliseconds. -/
theorem processLogEntry_format (durStr : Nat → String) (taskID : Nat)
    (elapsedNs : Nat) (line : String) :
    (ProcessLogEntry durStr taskID elapsedNs line).1 =
      "[" ++ rightJustify 10 (durStr (truncateDur elapsedNs 1000000)) ++ "] " ++
      StripColor line ++ "\n" ∧
    (ProcessLogEntry durStr taskID elapsedNs line).2.Data =
      (ProcessLogEntry durStr taskID elapsedNs line).1 ∧
    (ProcessLogEntry durStr taskID elapsedNs line).2.TaskID = taskID ∧
    (rightJustify 10 (durStr (truncateDur elapsedNs 1000000))).length =
      max 10 (durStr (truncateDur elapsedNs 1000000)).length ∧
    truncateDur elapsedNs 1000000 % 1000000 = 0 := by
  refine ⟨?_, rfl, rfl, ?_, ?_⟩
  · simp [ProcessLogEntry, goPadLeft_eq_rightJustify]
  · unfold rightJustify
    have hmk : ∀ l : List Char, (String.mk l).length = l.length := fun l => rfl
    rw [String.length_append, hmk, List.length_replicate]
    omega
  · unfold truncateDur
    omega

/-- Claim C8: after a status broadcast, the record read back from the
history store under the build ID — the stored JSON unmarshalled — equals
field-wise the record carried by the last build:update broadcast for that
build. -/
theorem history_store_roundtrip (d : BuildUpdateData) (st : SysState) :
    readBuildStatus (broadcastUpdate d st) d.ID = some d ∧
    (broadcastUpdate d st).chan.getLast? =
      some { MsgType := "build:update:" ++ toString d.ID, Data := d } := by
  constructor
  · simp [readBuildStatus, broadcastUpdate, historyPutStage, broadcastSendStage,
          getKV_putKV, decodeBUD_encodeBUD]
  · simp [broadcastUpdate, historyPutStage, broadcastSendStage]

/-- Claim C9: getBuildConfig reads the job from the build_plan file in the
wakespace of the build when that file exists, falls back to the old-format
build file when it does not, and returns an error and no job when neither
exists. -/
theorem getBuildConfig_prefers_new_format (fs : String → Option String)
    (parseYaml : String → Except String Job)
    (createJobFromFile : String → Except String Job)
    (workDir ext : String) (id : Nat) :
    getBuildConfig fs parseYaml createJobFromFile workDir ext id =
      getBuildConfigClaim fs parseYaml createJobFromFile workDir ext id := by
  unfold getBuildConfig getBuildConfigClaim
  cases fs (newConfigFilename workDir ext id) <;>
    cases fs (oldConfigFilename workDir ext id) <;> rfl

/-- Claim C10: the aborted flag of the build takes precedence over the
child process exit status — when a true value was consumed from the abort
channel, runTask returns aborted even for a complete zero-exit error-free
run; only with the flag clear does the exit status decide between finished
and failed. -/
theorem runTask_abort_precedence (evs : List SelEv) (st : CmdStatus) :
    (SelEv.abortSig true ∈ evs → runTaskStatus evs st = ItemStatus.aborted) ∧
    (SelEv.abortSig true ∉ evs →
      ((runTaskStatus evs st = ItemStatus.finished ↔
        st.Complete = true ∧ st.Exit = 0 ∧ st.Error = false) ∧
       (runTaskStatus evs st = ItemStatus.failed ↔
        ¬ (st.Complete = true ∧ st.Exit = 0 ∧ st.Error = false)))) := by
  constructor
  · intro h
    simp [runTaskStatus, abortedAfter_of_mem evs h false]
  · intro h
    have hb : abortedAfter evs false = false := abortedAfter_of_not_mem evs h
    obtain ⟨c, ex, er⟩ := st
    by_cases hex : ex = 0 <;> cases c <;> cases er <;>
      simp [runTaskStatus, hb, hex]

/-- Claim C10, witness: the theorem applied to a select-loop history that
consumed a true abort value and a complete zero-exit error-free process
status still gives an aborted task. -/
theorem runTask_abort_precedence_witness :
    runTaskStatus [SelEv.abortSig true] { Complete := true, Exit := 0, Error := false } =
      ItemStatus.aborted :=
  (runTask_abort_precedence [SelEv.abortSig true]
    { Complete := true, Exit := 0, Error := false }).1 (by decide)

end Wakeci
